import Mathlib

/-!
Verification of the quayd build-status and image-tagging pipeline
(quayd.go). The orchestrator (Quayd) and its three capabilities
(StatusesRepository, Tagger, TagResolver) are embedded as Lean functions;
interaction with the capabilities is recorded as an explicit trace of
operations so that invocation counts and ordering can be stated. Remote
behavior (the GitHub API, the docker registry HTTP endpoints, JSON
decoding) is a parameter of each network-backed adapter.
-/

namespace quayd

/-- A Go error value: `none` is the nil error. -/
abbrev Err := String

/-- The string displayed when showing the commit status (package variable
`Context` in quayd.go). -/
def Context : String := "Docker Image"

/-- The state to description table (package variable `Statuses`). A lookup of
a missing key yields the empty string, as a Go map lookup does. -/
def Statuses (state : String) : String :=
  if state = "pending" then "The Docker image is building"
  else if state = "success" then "The Docker image was built"
  else if state = "failure" then "The Docker image failed to build"
  else ""

/-- A GitHub Commit Status (struct `Status` in quayd.go). -/
structure Status where
  Repo : String
  Ref : String
  State : String
  Context : String
  TargetURL : String
  Description : String
deriving DecidableEq, Repr

/-- Behavior of a StatusesRepository implementation: the error its `Create`
returns for a given status. -/
abbrev CreateImpl := Status → Option Err

/-- Behavior of a Tagger implementation: the error `Tag repo imageID tag`
returns. -/
abbrev TagImpl := String → String → String → Option Err

/-- Behavior of a TagResolver implementation: the result of
`Resolve repo tag`. -/
abbrev ResolveImpl := String → String → Except Err String

/-- The fake statusesRepository `Create`: appends the status to the in-process
record and returns the nil error. -/
def statusesRepositoryCreate (statuses : List Status) (status : Status) :
    List Status × Option Err :=
  (statuses ++ [status], none)

/-- Error behavior of the fake statusesRepository (`DefaultStatusesRepository`):
`Create` always returns the nil error. -/
def DefaultStatusesRepository : CreateImpl := fun _ => none

/-- The fake tagger (`DefaultTagger`): `Tag` always returns nil. -/
def DefaultTagger : TagImpl := fun _ _ _ => none

/-- The fake tagResolver (`DefaultTagResolver`): `Resolve` returns the empty
string and the nil error. -/
def DefaultTagResolver : ResolveImpl := fun _ _ => Except.ok ""

/-- The `Quayd` struct: three embedded capability fields, where `none` models a
nil Go interface value (the field unconfigured). -/
structure Quayd where
  StatusesRepository : Option CreateImpl
  Tagger : Option TagImpl
  TagResolver : Option ResolveImpl

/-- `Quayd.statusesRepository`: fall back to the default when the field is nil. -/
def Quayd.statusesRepository (q : Quayd) : CreateImpl :=
  match q.StatusesRepository with
  | none => DefaultStatusesRepository
  | some r => r

/-- `Quayd.tagger`: fall back to the default when the field is nil. -/
def Quayd.tagger (q : Quayd) : TagImpl :=
  match q.Tagger with
  | none => DefaultTagger
  | some t => t

/-- `Quayd.tagResolver`: fall back to the default when the field is nil. -/
def Quayd.tagResolver (q : Quayd) : ResolveImpl :=
  match q.TagResolver with
  | none => DefaultTagResolver
  | some r => r

/-- One observable invocation of a capability by the orchestrator. -/
inductive Op where
  | createStatus (status : Status)
  | resolve (repo tag : String)
  | tag (repo imageID tag : String)
deriving DecidableEq, Repr

/-- The Status record `Quayd.Handle` builds for its arguments: description
looked up in the `Statuses` table, context the fixed `Context` label. -/
def handleStatus (repo commit url state : String) : Status :=
  { Repo := repo
    TargetURL := url
    Ref := commit
    State := state
    Description := Statuses state
    Context := quayd.Context }

/-- `Quayd.Handle`: builds the Status for the commit and submits it to the
statuses repository; the result is the trace of capability invocations paired
with the error returned by `Create`. -/
def Quayd.Handle (q : Quayd) (repo commit url state : String) :
    List Op × Option Err :=
  ([Op.createStatus (handleStatus repo commit url state)],
    q.statusesRepository (handleStatus repo commit url state))

/-- `Quayd.LoadImageTags`: resolve the tag to an image id, tag the image with
the commit, then tag it with its own image id; the first failure aborts and is
returned. The first component is the trace of capability invocations. -/
def Quayd.LoadImageTags (q : Quayd) (tag repo commit : String) :
    List Op × Option Err :=
  match q.tagResolver repo tag with
  | Except.error e => ([Op.resolve repo tag], some e)
  | Except.ok imageID =>
    match q.tagger repo imageID commit with
    | some e => ([Op.resolve repo tag, Op.tag repo imageID commit], some e)
    | none =>
      ([Op.resolve repo tag, Op.tag repo imageID commit,
        Op.tag repo imageID imageID],
        q.tagger repo imageID imageID)

/-- A normalized build event (spec section 3): repository, commit-ish ref,
reported state, build URL, and the registry tag supplied by the webhook
layer. -/
structure BuildEvent where
  repo : String
  ref : String
  state : String
  buildURL : String
  tag : String
deriving DecidableEq, Repr

/-- Outcome of dispatching one build event. -/
inductive HandleResult where
  | rejected
  | errored (e : Err)
  | ok
deriving DecidableEq, Repr

/-- Modelled from the spec: the webhook dispatch layer (the `NewServer`
routing of this repository is not under src, only its tests are). Per spec
sections 4.4 and 7, an event whose state is outside the recognized
enumeration is rejected before any side effect; otherwise the commit status
is created first via `Quayd.Handle`, and for the success state the tags are
then stabilized via `Quayd.LoadImageTags`, the first failure aborting the
remainder. -/
def handleEvent (q : Quayd) (e : BuildEvent) : List Op × HandleResult :=
  if e.state = "pending" ∨ e.state = "success" ∨ e.state = "failure" then
    match q.Handle e.repo e.ref e.buildURL e.state with
    | (ops, some err) => (ops, HandleResult.errored err)
    | (ops, none) =>
      if e.state = "success" then
        match q.LoadImageTags e.tag e.repo e.ref with
        | (ops2, some err) => (ops ++ ops2, HandleResult.errored err)
        | (ops2, none) => (ops ++ ops2, HandleResult.ok)
      else (ops, HandleResult.ok)
  else ([], HandleResult.rejected)

/-- The tagger invocations `(repo, imageID, tag)` recorded in a trace, in
order. -/
def tagOps : List Op → List (String × String × String)
  | [] => []
  | Op.tag repo imageID tag :: rest => (repo, imageID, tag) :: tagOps rest
  | _ :: rest => tagOps rest

/-- The statuses created in a trace, in order. -/
def createdStatuses : List Op → List Status
  | [] => []
  | Op.createStatus s :: rest => s :: createdStatuses rest
  | _ :: rest => createdStatuses rest

/-- Go `strings.Split` with a one-character separator, on lists of
characters: the segments between occurrences of the separator, empty
segments kept. -/
def split (sep : Char) : List Char → List (List Char)
  | [] => [[]]
  | c :: rest =>
    match split sep rest with
    | [] => [[]]
    | s :: ss => if c = sep then [] :: s :: ss else (c :: s) :: ss

/-- The segment of `l` before the first occurrence of `sep` (all of `l` when
`sep` does not occur). -/
def upToSep (sep : Char) : List Char → List Char
  | [] => []
  | c :: rest => if c = sep then [] else c :: upToSep sep rest

/-- The remainder of `l` after the first occurrence of `sep` (empty when
`sep` does not occur). -/
def afterSep (sep : Char) : List Char → List Char
  | [] => []
  | c :: rest => if c = sep then rest else afterSep sep rest

theorem split_ne_nil (sep : Char) (l : List Char) : split sep l ≠ [] := by
  cases l with
  | nil => simp [split]
  | cons c rest =>
    simp only [split]
    cases h : split sep rest with
    | nil => simp
    | cons s ss => by_cases hc : c = sep <;> simp [hc]

theorem split_of_not_mem (sep : Char) (l : List Char) (h : sep ∉ l) :
    split sep l = [l] := by
  induction l with
  | nil => rfl
  | cons c rest ih =>
    have hc : ¬ c = sep := fun hcs => h (by simp [hcs])
    have hr : sep ∉ rest := fun hm => h (List.mem_cons_of_mem c hm)
    simp [split, ih hr, hc]

theorem upToSep_of_not_mem (sep : Char) (l : List Char) (h : sep ∉ l) :
    upToSep sep l = l := by
  induction l with
  | nil => rfl
  | cons c rest ih =>
    have hc : ¬ c = sep := fun hcs => h (by simp [hcs])
    have hr : sep ∉ rest := fun hm => h (List.mem_cons_of_mem c hm)
    simp [upToSep, hc, ih hr]

theorem split_of_mem (sep : Char) (l : List Char) (h : sep ∈ l) :
    split sep l = upToSep sep l :: split sep (afterSep sep l) := by
  induction l with
  | nil => cases h
  | cons c rest ih =>
    by_cases hc : c = sep
    · subst hc
      cases hsr : split c rest with
      | nil => exact absurd hsr (split_ne_nil c rest)
      | cons s ss => simp [split, hsr, upToSep, afterSep]
    · have hm : sep ∈ rest := by
        rcases List.mem_cons.mp h with h1 | h2
        · exact absurd h1.symm hc
        · exact h2
      simp [split, ih hm, upToSep, afterSep, hc]

theorem split_head (sep : Char) (l : List Char) :
    ∃ ss, split sep l = upToSep sep l :: ss := by
  by_cases h : sep ∈ l
  · exact ⟨split sep (afterSep sep l), split_of_mem sep l h⟩
  · exact ⟨[], by rw [split_of_not_mem sep l h, upToSep_of_not_mem sep l h]⟩

/-- The fields of `github.RepoStatus` that `GitHubStatusesRepository.Create`
fills in before calling the remote API. -/
structure RepoStatus where
  State : String
  TargetURL : String
  Context : String
  Description : String
deriving DecidableEq, Repr

/-- Outcome of `GitHubStatusesRepository.Create`: either the out-of-range
panic from indexing the split result, or a call to the remote `CreateStatus`
with the owner and name segments, the ref, the built `RepoStatus`, and the
error the remote returned. -/
inductive GitHubCreateOutcome where
  | panicked
  | called (owner name : List Char) (e : Option Err)
deriving DecidableEq, Repr

/-- `GitHubStatusesRepository.Create`: builds a `RepoStatus` from the status,
splits `Repo` on the slash, and passes the first two segments (with the ref
and the `RepoStatus`) to the RepositoriesService, returning its error. When
the split has fewer than two elements, reading the second element is an
out-of-range panic. `remote` is the behavior of
`RepositoriesService.CreateStatus`. -/
def GitHubCreate
    (remote : List Char → List Char → String → RepoStatus → Option Err)
    (status : Status) : GitHubCreateOutcome :=
  let st : RepoStatus :=
    { State := status.State
      TargetURL := status.TargetURL
      Context := status.Context
      Description := status.Description }
  match split '/' status.Repo.toList with
  | c0 :: c1 :: _ => GitHubCreateOutcome.called c0 c1 (remote c0 c1 status.Ref st)
  | _ => GitHubCreateOutcome.panicked

/-- An HTTP response as seen by the tagger: numeric status code and the
status text (Go `resp.StatusCode` and `resp.Status`). -/
structure HttpResponse where
  StatusCode : Nat
  StatusText : String
deriving DecidableEq, Repr

/-- Outcome of `DockerRegistryTagger.Tag`: a nil-pointer panic, a returned
error, or the nil error. -/
inductive TagOutcome where
  | panicked
  | errored (msg : String)
  | ok
deriving DecidableEq, Repr

/-- `DockerRegistryTagger.Tag`, parameterized by the outcome of building the
request (`newReqErr`, the error of `http.NewRequest`) and of the transport
(`transport`, the outcome of `http.DefaultClient.Do`). A request-building
error is returned as-is. On a transport error the code enters the error
branch with a nil response and reads `resp.Status` from it: a nil-pointer
panic. A response with status code at least 300 yields an error carrying the
status text. Otherwise the nil error is returned. -/
def DockerRegistryTaggerTag (newReqErr : Option Err)
    (transport : Except Err HttpResponse) : TagOutcome :=
  match newReqErr with
  | some e => TagOutcome.errored e
  | none =>
    match transport with
    | Except.error _ => TagOutcome.panicked
    | Except.ok resp =>
      if 300 ≤ resp.StatusCode then
        TagOutcome.errored ("Unsuccessful Request: " ++ resp.StatusText)
      else TagOutcome.ok

/-- A response to the registry GET performed by the resolver: the status code
(which the code never inspects) and the response body. -/
structure GetResponse where
  StatusCode : Nat
  Body : String
deriving DecidableEq, Repr

/-- `DockerRegistryTagResolver.Resolve`, parameterized by the transport
outcome of `http.Get` and by the JSON string decoder applied to the response
body. A transport error is returned; otherwise the body is decoded as a JSON
string, a decode failure is returned, and a decoded image id is returned with
the nil error. The response status code is never inspected. -/
def DockerRegistryTagResolverResolve (transport : Except Err GetResponse)
    (decode : String → Except Err String) : Except Err String :=
  match transport with
  | Except.error e => Except.error e
  | Except.ok resp =>
    match decode resp.Body with
    | Except.error e => Except.error e
    | Except.ok imageID => Except.ok imageID

/-- The credential part of `New`: splits `registryAuth` on colons and reads
the first two segments as the registry username and password. `none` models
the out-of-range panic when the split has no second element (no colon in the
string). -/
def New (registryAuth : List Char) : Option (List Char × List Char) :=
  match split ':' registryAuth with
  | a0 :: a1 :: _ => some (a0, a1)
  | _ => none

theorem loadImageTags_resolve_error (q : Quayd) (tag repo commit e : String)
    (h : q.tagResolver repo tag = Except.error e) :
    q.LoadImageTags tag repo commit = ([Op.resolve repo tag], some e) := by
  simp [Quayd.LoadImageTags, h]

theorem loadImageTags_tag_error (q : Quayd) (tag repo commit imageID e : String)
    (hres : q.tagResolver repo tag = Except.ok imageID)
    (htag : q.tagger repo imageID commit = some e) :
    q.LoadImageTags tag repo commit =
      ([Op.resolve repo tag, Op.tag repo imageID commit], some e) := by
  simp [Quayd.LoadImageTags, hres, htag]

theorem loadImageTags_ok_trace (q : Quayd) (tag repo commit imageID : String)
    (hres : q.tagResolver repo tag = Except.ok imageID)
    (htag : q.tagger repo imageID commit = none) :
    q.LoadImageTags tag repo commit =
      ([Op.resolve repo tag, Op.tag repo imageID commit,
        Op.tag repo imageID imageID], q.tagger repo imageID imageID) := by
  simp [Quayd.LoadImageTags, hres, htag]

/-- Claim C4: in `LoadImageTags`, tagging is all-or-nothing for the caller: a
resolver error is returned with no tag attempted; a failure of the first tag
write (the commit reference) stops the second (the self-referential image-id
tag) and is returned; and the overall result is the nil error exactly when the
resolve and both tag writes all succeed. -/
theorem LoadImageTags_spec (q : Quayd) (tag repo commit : String) :
    (∀ e, q.tagResolver repo tag = Except.error e →
      q.LoadImageTags tag repo commit = ([Op.resolve repo tag], some e)) ∧
    (∀ imageID e, q.tagResolver repo tag = Except.ok imageID →
      q.tagger repo imageID commit = some e →
      q.LoadImageTags tag repo commit =
        ([Op.resolve repo tag, Op.tag repo imageID commit], some e)) ∧
    ((q.LoadImageTags tag repo commit).2 = none ↔
      ∃ imageID, q.tagResolver repo tag = Except.ok imageID ∧
        q.tagger repo imageID commit = none ∧
        q.tagger repo imageID imageID = none) := by
  refine ⟨fun e h => loadImageTags_resolve_error q tag repo commit e h,
    fun imageID e hres htag =>
      loadImageTags_tag_error q tag repo commit imageID e hres htag, ?_⟩
  cases hres : q.tagResolver repo tag with
  | error e => simp [Quayd.LoadImageTags, hres]
  | ok imageID =>
    cases htag : q.tagger repo imageID commit with
    | some e => simp [Quayd.LoadImageTags, hres, htag]
    | none => simp [Quayd.LoadImageTags, hres, htag]

/-- Witness for C4 at a concrete failing resolver. -/
theorem LoadImageTags_spec_witness :
    Quayd.LoadImageTags
      ⟨none, none, some (fun _ _ => Except.error "resolve failed")⟩
      "master" "r" "c" = ([Op.resolve "r" "master"], some "resolve failed") :=
  (LoadImageTags_spec
    ⟨none, none, some (fun _ _ => Except.error "resolve failed")⟩
    "master" "r" "c").1 "resolve failed" rfl

/-- Claim C8: each capability independently falls back to its fake default
when the corresponding `Quayd` field is nil, and with all three fields nil
both `Handle` and `LoadImageTags` return the nil error. -/
theorem quayd_defaults (s : Option CreateImpl) (t : Option TagImpl)
    (r : Option ResolveImpl) (repo commit url state tag : String) :
    Quayd.statusesRepository ⟨s, t, r⟩ = s.getD DefaultStatusesRepository ∧
    Quayd.tagger ⟨s, t, r⟩ = t.getD DefaultTagger ∧
    Quayd.tagResolver ⟨s, t, r⟩ = r.getD DefaultTagResolver ∧
    (Quayd.Handle ⟨none, none, none⟩ repo commit url state).2 = none ∧
    (Quayd.LoadImageTags ⟨none, none, none⟩ tag repo commit).2 = none := by
  refine ⟨?_, ?_, ?_, rfl, rfl⟩
  · cases s <;> rfl
  · cases t <;> rfl
  · cases r <;> rfl

/-- Claim C10: `Handle` does not validate the state: for any state string it
submits exactly one Status to the configured sink, with that State, the fixed
`Context`, and the `Statuses` table description (empty for unrecognized
states), and returns exactly the sink result. -/
theorem Handle_spec (q : Quayd) (repo commit url state : String) :
    Quayd.Handle q repo commit url state =
      ([Op.createStatus
        { Repo := repo, Ref := commit, State := state, Context := Context,
          TargetURL := url, Description := Statuses state }],
        q.statusesRepository
          { Repo := repo, Ref := commit, State := state, Context := Context,
            TargetURL := url, Description := Statuses state }) ∧
    (state ≠ "pending" → state ≠ "success" → state ≠ "failure" →
      Statuses state = "") := by
  constructor
  · rfl
  · intro h1 h2 h3
    simp [Statuses, h1, h2, h3]

/-- Witness for C10 at the unrecognized state string "bogus". -/
theorem Handle_spec_witness :
    Quayd.Handle ⟨none, none, none⟩ "r" "c" "u" "bogus" =
      ([Op.createStatus
        { Repo := "r", Ref := "c", State := "bogus", Context := "Docker Image",
          TargetURL := "u", Description := "" }], none) ∧
    Statuses "bogus" = "" := by
  have h := Handle_spec ⟨none, none, none⟩ "r" "c" "u" "bogus"
  exact ⟨h.1.trans (by decide), h.2 (by decide) (by decide) (by decide)⟩

/-- Claim C9: `New` has the unstated precondition that `registryAuth`
contains a colon: without one, reading the second element of the split is an
out-of-range panic (modelled as `none`); with one, the username is the
segment before the first colon and the password the segment between the
first and second colon. -/
theorem New_spec (auth : List Char) :
    (':' ∉ auth → New auth = none) ∧
    (':' ∈ auth → New auth =
      some (upToSep ':' auth, upToSep ':' (afterSep ':' auth))) := by
  constructor
  · intro h
    simp [New, split_of_not_mem ':' auth h]
  · intro h
    obtain ⟨ss, hs⟩ := split_head ':' (afterSep ':' auth)
    simp [New, split_of_mem ':' auth h, hs]

/-- Witness for C9: credentials split of a wellformed pair, and the panic
case of a colon-free string. -/
theorem New_spec_witness :
    New "user:pass".toList = some ("user".toList, "pass".toList) ∧
    New "userpass".toList = none := by
  have h1 := (New_spec "user:pass".toList).2 (by decide)
  have h2 := (New_spec "userpass".toList).1 (by decide)
  exact ⟨h1.trans (by decide), h2⟩

/-- Counterexample to claim C5 as stated: for the malformed repository "foo"
(no slash) `GitHubStatusesRepository.Create` panics rather than returning an
error, and for "/x" it silently passes the empty owner segment to the remote
API with no error. -/
theorem github_create_claim_refuted :
    GitHubCreate (fun _ _ _ _ => none)
      { Repo := "foo", Ref := "r", State := "s", Context := "c",
        TargetURL := "u", Description := "d" } =
      GitHubCreateOutcome.panicked ∧
    GitHubCreate (fun _ _ _ _ => none)
      { Repo := "/x", Ref := "r", State := "s", Context := "c",
        TargetURL := "u", Description := "d" } =
      GitHubCreateOutcome.called [] ['x'] none := by
  exact ⟨by decide, by decide⟩

/-- Claim C5 amended: `Create` does not validate the repository string. It
splits on the slash and passes the first two segments, whatever they are, to
the remote API (ignoring any further segments, allowing empty ones); when the
repository contains no slash at all, reading the second segment is an
out-of-range panic, not a returned error. -/
theorem GitHubCreate_split_behavior
    (remote : List Char → List Char → String → RepoStatus → Option Err)
    (status : Status) :
    ('/' ∉ status.Repo.toList →
      GitHubCreate remote status = GitHubCreateOutcome.panicked) ∧
    ('/' ∈ status.Repo.toList →
      GitHubCreate remote status =
        GitHubCreateOutcome.called (upToSep '/' status.Repo.toList)
          (upToSep '/' (afterSep '/' status.Repo.toList))
          (remote (upToSep '/' status.Repo.toList)
            (upToSep '/' (afterSep '/' status.Repo.toList)) status.Ref
            { State := status.State, TargetURL := status.TargetURL,
              Context := status.Context,
              Description := status.Description })) := by
  constructor
  · intro h
    have h2 : '/' ∉ status.Repo.data := h
    simp [GitHubCreate, split_of_not_mem '/' _ h2]
  · intro h
    have h2 : '/' ∈ status.Repo.data := h
    obtain ⟨ss, hs⟩ := split_head '/' (afterSep '/' status.Repo.data)
    simp [GitHubCreate, split_of_mem '/' _ h2, hs]

/-- Witness for the amended C5 at the wellformed repository "owner/name". -/
theorem GitHubCreate_split_behavior_witness :
    GitHubCreate (fun _ _ _ _ => none)
      { Repo := "owner/name", Ref := "r", State := "s", Context := "c",
        TargetURL := "u", Description := "d" } =
      GitHubCreateOutcome.called "owner".toList "name".toList none := by
  have h := (GitHubCreate_split_behavior (fun _ _ _ _ => none)
    { Repo := "owner/name", Ref := "r", State := "s", Context := "c",
      TargetURL := "u", Description := "d" }).2 (by decide)
  exact h.trans (by decide)

/-- Counterexample to claim C6 as stated: on a transport error the tagger
does not return an error value at all; it dereferences the nil response
(reading `resp.Status`) and panics. -/
theorem docker_tag_claim_refuted :
    DockerRegistryTaggerTag none (Except.error "connection refused") =
      TagOutcome.panicked := rfl

/-- Claim C6 amended: a response with status at least 300 yields an error
that includes the server status text; a transport error causes a nil-pointer
panic rather than a returned error; and `Tag` returns the nil error exactly
when the request was built, the transport succeeded and the response status
is below 300. -/
theorem DockerTag_error_behavior (nr : Option Err)
    (tr : Except Err HttpResponse) :
    (∀ resp : HttpResponse, 300 ≤ resp.StatusCode →
      DockerRegistryTaggerTag none (Except.ok resp) =
        TagOutcome.errored ("Unsuccessful Request: " ++ resp.StatusText)) ∧
    (∀ e, DockerRegistryTaggerTag none (Except.error e) =
      TagOutcome.panicked) ∧
    (DockerRegistryTaggerTag nr tr = TagOutcome.ok ↔
      nr = none ∧ ∃ resp, tr = Except.ok resp ∧ resp.StatusCode < 300) := by
  refine ⟨fun resp h => by simp [DockerRegistryTaggerTag, h], fun e => rfl, ?_⟩
  cases nr with
  | some e => simp [DockerRegistryTaggerTag]
  | none =>
    cases tr with
    | error e => simp [DockerRegistryTaggerTag]
    | ok resp =>
      by_cases h : 300 ≤ resp.StatusCode
      · simp [DockerRegistryTaggerTag, h, Nat.not_lt.mpr h]
      · simp [DockerRegistryTaggerTag, h, Nat.lt_of_not_le h]

/-- Witness for the amended C6 at a concrete 404 response. -/
theorem DockerTag_error_behavior_witness :
    DockerRegistryTaggerTag none (Except.ok ⟨404, "404 NOT FOUND"⟩) =
      TagOutcome.errored "Unsuccessful Request: 404 NOT FOUND" := by
  have h := (DockerTag_error_behavior none
    (Except.ok ⟨404, "404 NOT FOUND"⟩)).1 ⟨404, "404 NOT FOUND"⟩ (by decide)
  exact h.trans (by decide)

/-- Counterexample to claim C7 as stated: the resolver never inspects the
response status code, so a 404 response whose body decodes as a JSON string
is returned with the nil error instead of surfacing an error. -/
theorem docker_resolve_claim_refuted :
    DockerRegistryTagResolverResolve
      (Except.ok { StatusCode := 404, Body := "\"deadbeef\"" })
      (fun b => if b = "\"deadbeef\"" then Except.ok "deadbeef"
        else Except.error "invalid character") = Except.ok "deadbeef" := by
  rfl

/-- Claim C7 amended: a transport failure and a malformed (non-decodable)
body each surface as a returned error, but the response status code is never
inspected: the result is an image id with the nil error exactly when the
transport succeeded and the body decoded as a JSON string, whatever the
status code was. -/
theorem DockerResolve_error_behavior (tr : Except Err GetResponse)
    (decode : String → Except Err String) :
    (∀ e, DockerRegistryTagResolverResolve (Except.error e) decode =
      Except.error e) ∧
    (∀ resp e, decode resp.Body = Except.error e →
      DockerRegistryTagResolverResolve (Except.ok resp) decode =
        Except.error e) ∧
    (∀ resp imageID, decode resp.Body = Except.ok imageID →
      DockerRegistryTagResolverResolve (Except.ok resp) decode =
        Except.ok imageID) ∧
    ((∃ imageID, DockerRegistryTagResolverResolve tr decode =
        Except.ok imageID) ↔
      ∃ resp imageID, tr = Except.ok resp ∧
        decode resp.Body = Except.ok imageID) := by
  refine ⟨fun e => rfl,
    fun resp e h => by simp [DockerRegistryTagResolverResolve, h],
    fun resp imageID h => by simp [DockerRegistryTagResolverResolve, h], ?_⟩
  cases tr with
  | error e => simp [DockerRegistryTagResolverResolve]
  | ok resp =>
    cases hd : decode resp.Body with
    | error e => simp [DockerRegistryTagResolverResolve, hd]
    | ok imageID => simp [DockerRegistryTagResolverResolve, hd]

/-- Witness for the amended C7 at a concrete malformed body. -/
theorem DockerResolve_error_behavior_witness :
    DockerRegistryTagResolverResolve
      (Except.ok { StatusCode := 200, Body := "not json" })
      (fun _ => Except.error "invalid character") =
      Except.error "invalid character" :=
  (DockerResolve_error_behavior
    (Except.ok { StatusCode := 200, Body := "not json" })
    (fun _ => Except.error "invalid character")).2.1
    { StatusCode := 200, Body := "not json" } "invalid character" rfl

/-- Claim C2: an event whose state is outside the recognized enumeration is
rejected before any side effect: the trace is empty (zero statuses created,
zero resolve or tag operations, no remote call) and the outcome is the
rejection, distinguishable from an adapter error. -/
theorem unrecognized_state_rejected (q : Quayd) (e : BuildEvent)
    (h1 : e.state ≠ "pending") (h2 : e.state ≠ "success")
    (h3 : e.state ≠ "failure") :
    handleEvent q e = ([], HandleResult.rejected) := by
  simp [handleEvent, h1, h2, h3]

/-- Witness for C2 at the unrecognized state "foo". -/
theorem unrecognized_state_rejected_witness :
    handleEvent ⟨none, none, none⟩ ⟨"r", "c", "foo", "", "t"⟩ =
      ([], HandleResult.rejected) :=
  unrecognized_state_rejected ⟨none, none, none⟩ ⟨"r", "c", "foo", "", "t"⟩
    (by decide) (by decide) (by decide)

/-- Claim C3: for an event with state pending or failure, the trace is
exactly one created status, whose State is the event state, whose Description
is the `Statuses` table entry for that state and whose Context is the fixed
integration label; the tagger and resolver are never invoked. -/
theorem pending_failure_single_status (q : Quayd) (e : BuildEvent)
    (h : e.state = "pending" ∨ e.state = "failure") :
    (handleEvent q e).1 =
      [Op.createStatus
        { Repo := e.repo, Ref := e.ref, State := e.state, Context := Context,
          TargetURL := e.buildURL, Description := Statuses e.state }] := by
  have hns : e.state ≠ "success" := by
    rcases h with h | h <;> simp [h]
  have hrec : e.state = "pending" ∨ e.state = "success" ∨ e.state = "failure" := by
    rcases h with h | h
    · exact Or.inl h
    · exact Or.inr (Or.inr h)
  cases hcr : q.statusesRepository (handleStatus e.repo e.ref e.buildURL e.state) with
  | some err =>
    unfold handleEvent
    rw [if_pos hrec]
    simp only [Quayd.Handle, hcr]
    simp [handleStatus]
  | none =>
    unfold handleEvent
    rw [if_pos hrec]
    simp only [Quayd.Handle, hcr]
    rw [if_neg hns]
    simp [handleStatus]

/-- Witness for C3: the concrete pending event for ejholmes/docker-statsd
records exactly one status with the Docker Image context and the configured
pending description. -/
theorem pending_failure_single_status_witness :
    (handleEvent ⟨none, none, none⟩
      ⟨"ejholmes/docker-statsd", "long-f1fb3b0", "pending", "",
        "long-f1fb3b0"⟩).1 =
      [Op.createStatus
        { Repo := "ejholmes/docker-statsd", Ref := "long-f1fb3b0",
          State := "pending", Context := "Docker Image", TargetURL := "",
          Description := "The Docker image is building" }] := by
  have h := pending_failure_single_status ⟨none, none, none⟩
    ⟨"ejholmes/docker-statsd", "long-f1fb3b0", "pending", "", "long-f1fb3b0"⟩
    (Or.inl rfl)
  exact h.trans (by decide)

/-- Counterexample to claim C1 as stated: even though the resolver returns
image id "1234", a failing first tag write leaves the tagger invoked exactly
once, not twice; and a failing status creation leaves it invoked zero
times. -/
theorem success_tagging_claim_refuted :
    tagOps (handleEvent
      ⟨some (fun _ => none), some (fun _ _ _ => some "tag failed"),
        some (fun _ _ => Except.ok "1234")⟩
      ⟨"ejholmes/docker-statsd", "long-f1fb3b0", "success", "", "master"⟩).1 =
      [("ejholmes/docker-statsd", "1234", "long-f1fb3b0")] ∧
    tagOps (handleEvent
      ⟨some (fun _ => some "status failed"), some (fun _ _ _ => none),
        some (fun _ _ => Except.ok "1234")⟩
      ⟨"ejholmes/docker-statsd", "long-f1fb3b0", "success", "", "master"⟩).1 =
      [] := by
  exact ⟨by decide, by decide⟩

/-- Claim C1 amended: for a success event, provided the status creation and
the first tag write succeed, if the resolver returns image id I for
(repo, tag) then the trace is exactly the success status for (repo, ref)
followed by the resolve and the two tag writes (repo, I, ref) then
(repo, I, I), in that order: the success status is created before any tag
operation and the tagger is invoked exactly twice. -/
theorem success_tagging_order (q : Quayd) (e : BuildEvent) (I : String)
    (hstate : e.state = "success")
    (hcreate : q.statusesRepository
      (handleStatus e.repo e.ref e.buildURL e.state) = none)
    (hres : q.tagResolver e.repo e.tag = Except.ok I)
    (htag1 : q.tagger e.repo I e.ref = none) :
    (handleEvent q e).1 =
      [Op.createStatus
        { Repo := e.repo, Ref := e.ref, State := e.state, Context := Context,
          TargetURL := e.buildURL, Description := Statuses e.state },
        Op.resolve e.repo e.tag, Op.tag e.repo I e.ref,
        Op.tag e.repo I I] := by
  have hrec : e.state = "pending" ∨ e.state = "success" ∨
      e.state = "failure" := Or.inr (Or.inl hstate)
  have hload := loadImageTags_ok_trace q e.tag e.repo e.ref I hres htag1
  unfold handleEvent
  rw [if_pos hrec]
  simp only [Quayd.Handle, hcreate]
  rw [if_pos hstate, hload]
  cases htag2 : q.tagger e.repo I I with
  | some err => simp [handleStatus]
  | none => simp [handleStatus]

/-- Witness for the amended C1 with succeeding collaborators, matching the
spec scenario where tag "master" resolves to image id "1234". -/
theorem success_tagging_order_witness :
    (handleEvent
      ⟨some (fun _ => none), some (fun _ _ _ => none),
        some (fun _ _ => Except.ok "1234")⟩
      ⟨"ejholmes/docker-statsd", "long-f1fb3b0", "success", "", "master"⟩).1 =
      [Op.createStatus
        { Repo := "ejholmes/docker-statsd", Ref := "long-f1fb3b0",
          State := "success", Context := "Docker Image", TargetURL := "",
          Description := "The Docker image was built" },
        Op.resolve "ejholmes/docker-statsd" "master",
        Op.tag "ejholmes/docker-statsd" "1234" "long-f1fb3b0",
        Op.tag "ejholmes/docker-statsd" "1234" "1234"] := by
  have h := success_tagging_order
    ⟨some (fun _ => none), some (fun _ _ _ => none),
      some (fun _ _ => Except.ok "1234")⟩
    ⟨"ejholmes/docker-statsd", "long-f1fb3b0", "success", "", "master"⟩
    "1234" rfl rfl rfl rfl
  exact h.trans (by decide)

end quayd
